import Mathlib

/-!
Shallow embedding of the per-node Ben-Or consensus state machine of
`src/nodes/node.ts` (repository Workshop5-decentralization), together with
proofs about the claims of its specification.

Modelling choices:
* The node's mutable closure state (`state`, `messages`, `consensusRunning`,
  `stepTimeout`) becomes an explicit `Node` record; every HTTP route and the
  internal `benOrStep` become pure functions `Node → Node` (returning the
  response where relevant).
* One invocation of `benOrStep` is modelled atomically.  The messages that
  arrive during its two `await`/`setTimeout` windows are passed in as the
  explicit lists `arr1` and `arr2` and recorded through the same code path as
  the `/message` route.  The two `Math.random() < 0.5` draws become the
  explicit booleans `coin1`, `coin2` (`true` = the draw was `< 0.5`, i.e. the
  value `0` is chosen).
* Network transmission (`fetch` inside `broadcastMessage`) is modelled by the
  ghost field `sent`, the log of `(recipient, message)` pairs handed to the
  transport; the boundary layer is out of scope per the spec.
* JavaScript numbers are modelled by `Nat` (all quantities involved are
  non-negative integers); `F > N/2` is expressed as `2 * F > N`, and
  truthiness of a numeric `state.k` (`!state.k`) as `k = 0` / `none`.
* The `Step` relation lets the boundary layer invoke any route and a scheduled
  `benOrStep` at any time between atomic operations; this over-approximates
  the real timer-driven schedule, so safety invariants proved over `Reachable`
  hold for every real execution.
-/

namespace BenOr

/-- Modelled from the spec: the `Value` type of `src/types.ts` (a file the
repository imports but that is not part of the provided sources).  Per §3 and
§6 of the spec it is `0 | 1 | "?"`, the sentinel meaning "no settled proposal
yet". -/
inductive Value where
  | v0
  | v1
  | unknown
deriving DecidableEq, Repr

/-- `type MessageType = "R" | "P"` (node.ts line 7). -/
inductive MessageType where
  | R
  | P
deriving DecidableEq, Repr

/-- `interface Message { type; nodeId; k; v }` (node.ts lines 9-14). -/
structure Message where
  type : MessageType
  nodeId : Nat
  k : Nat
  v : Value
deriving DecidableEq, Repr

/-- Static configuration of one node: the parameters of the `node(...)`
function (node.ts lines 16-23) that never change. -/
structure Config where
  nodeId : Nat
  N : Nat
  F : Nat
  initialValue : Value
  isFaulty : Bool
deriving DecidableEq, Repr

/-- The `NodeState` record (node.ts lines 30-35): nullable fields become
`Option`s (`none` = JavaScript `null`). -/
structure NodeState where
  killed : Bool
  x : Option Value
  decided : Option Bool
  k : Option Nat
deriving DecidableEq, Repr

/-- One entry of `messages[k] = { r: Message[]; p: Message[] }`
(node.ts line 38). -/
structure Bucket where
  r : List Message
  p : List Message
deriving DecidableEq, Repr

/-- The message store `messages : Record<number, {r, p}>`, as an association
list keyed by round number. -/
abbrev Store := List (Nat × Bucket)

/-- Bucket lookup (`messages[k]`). -/
def lookupB (ms : Store) (k : Nat) : Option Bucket :=
  (ms.find? (fun e => e.1 == k)).map Prod.snd

/-- Replace the bucket stored under key `k` (the key is assumed present). -/
def setB (ms : Store) (k : Nat) (b : Bucket) : Store :=
  ms.map (fun e => if e.1 = k then (k, b) else e)

/-- `if (!messages[k]) messages[k] = { r: [], p: [] }`
(node.ts lines 89-91 and 237-239). -/
def ensureB (ms : Store) (k : Nat) : Store :=
  match lookupB ms k with
  | some _ => ms
  | none => ms ++ [(k, ⟨[], []⟩)]

/-- Insert a message into its round/phase bucket, creating the bucket if
absent — the body of the `/message` route (node.ts lines 236-246), also used
for the node's own self-delivered messages. -/
def recordMsg (ms : Store) (m : Message) : Store :=
  let ms1 := ensureB ms m.k
  match lookupB ms1 m.k with
  | some b =>
      match m.type with
      | MessageType.R => setB ms1 m.k ⟨b.r ++ [m], b.p⟩
      | MessageType.P => setB ms1 m.k ⟨b.r, b.p ++ [m]⟩
  | none => ms1

/-- Deletion of stale buckets (node.ts lines 202-208): every key
`< state.k - 1` is removed, where `kNew` is the already-incremented round. -/
def pruneStore (ms : Store) (kNew : Nat) : Store :=
  ms.filter (fun e => !decide (e.1 < kNew - 1))

/-- `messages[k].r.filter(msg => msg.v === v).length` style count. -/
def countV (l : List Message) (v : Value) : Nat :=
  (l.filter (fun m => decide (m.v = v))).length

/-- `Math.random() < 0.5 ? 0 : 1` — `true` means the draw was below 0.5. -/
def coinValue (b : Bool) : Value :=
  if b then Value.v0 else Value.v1

/-- The whole mutable closure of `node(...)`: `state`, `messages`,
`consensusRunning`, `stepTimeout` (node.ts lines 30-40), plus the ghost
transmission log `sent`. -/
structure Node where
  state : NodeState
  messages : Store
  consensusRunning : Bool
  stepTimeout : Bool
  sent : List (Nat × Message)
deriving DecidableEq, Repr

/-- Initial closure state (node.ts lines 30-40).  The redundant
`F > N/2 ? false : false` of line 33 is kept verbatim. -/
def initState (cfg : Config) : NodeState :=
  { killed := false
    x := if cfg.isFaulty then none else some cfg.initialValue
    decided := if cfg.isFaulty then none
               else some (if 2 * cfg.F > cfg.N then false else false)
    k := if cfg.isFaulty then none
         else some (if 2 * cfg.F > cfg.N then 15 else 0) }

/-- A freshly constructed node. -/
def initNode (cfg : Config) : Node :=
  { state := initState cfg
    messages := []
    consensusRunning := false
    stepTimeout := false
    sent := [] }

/-- `broadcastMessage` (node.ts lines 43-61): the list of `(recipient,
message)` pairs handed to the transport — empty when killed or faulty, else
one per peer `i ≠ nodeId`.  Transport failures are swallowed and do not
affect the node, so only this log matters. -/
def broadcastOut (cfg : Config) (st : NodeState) (m : Message) :
    List (Nat × Message) :=
  if st.killed || cfg.isFaulty then []
  else ((List.range cfg.N).filter (fun i => i ≠ cfg.nodeId)).map (fun i => (i, m))

/-- `if (!state.k || state.k <= 10) state.k = 15` (node.ts lines 70-72 and
299-301): `!state.k` is JavaScript truthiness, true for `null` and `0`. -/
def forceK (k : Option Nat) : Option Nat :=
  match k with
  | none => some 15
  | some v => if v = 0 ∨ v ≤ 10 then some 15 else some v

/-- The `F > N/2` early branch of `benOrStep` (node.ts lines 67-80): force
`decided = false`, force `k` above 10, reschedule, and return without running
the algorithm. -/
def forcedStep (_cfg : Config) (nd : Node) : Node :=
  { nd with
    state := { nd.state with decided := some false, k := forceK nd.state.k }
    stepTimeout := nd.consensusRunning && !nd.state.killed }

/-- Phase-2 proposal computation over the round's R bucket
(node.ts lines 114-128). -/
def proposeFromR (N : Nat) (rBuf : List Message) (coin : Bool) : Value :=
  let count0 := countV rBuf Value.v0
  let count1 := countV rBuf Value.v1
  if 2 * count0 > N then Value.v0
  else if 2 * count1 > N then Value.v1
  else coinValue coin

/-- The P-phase resolution chain (node.ts lines 160-192), both the
`F <= N/2` branch — which leaves `decided` untouched (`d`) in its non-deciding
arms — and the `F > N/2` branch, which forces `decided = false`.  `c0P`,
`c1P` are the counts over the round's P bucket, `threshold = N - F`. -/
def resolveP (N F : Nat) (c0P c1P : Nat) (coin : Bool) (d : Option Bool) :
    Option Value × Option Bool :=
  if 2 * F ≤ N then
    if c0P ≥ N - F then (some Value.v0, some true)
    else if c1P ≥ N - F then (some Value.v1, some true)
    else if c0P ≥ F + 1 then (some Value.v0, d)
    else if c1P ≥ F + 1 then (some Value.v1, d)
    else (some (coinValue coin), d)
  else
    (if c0P ≥ F + 1 then some Value.v0
     else if c1P ≥ F + 1 then some Value.v1
     else some (coinValue coin),
     some false)

/-- The main body of `benOrStep` (node.ts lines 86-216), reached only past
the killed/faulty, `F > N/2` and already-decided guards.  `arr1`/`arr2` are
the peer messages delivered during the two await windows; `coin1`/`coin2`
the two random draws. -/
def benOrMain (cfg : Config) (nd : Node) (arr1 arr2 : List Message)
    (coin1 coin2 : Bool) : Node :=
  -- `if (!state.k) state.k = 0` (line 86): `0` and `null` both map to `0`.
  let k0 := nd.state.k.getD 0
  let ms1 := ensureB nd.messages k0
  -- Phase 1: broadcast R with the current value and self-deliver it
  -- (lines 96-109); `state.x!` reads the non-null current value.
  let rMsg : Message :=
    { type := MessageType.R, nodeId := cfg.nodeId, k := k0
      v := nd.state.x.getD Value.unknown }
  let out1 := broadcastOut cfg nd.state rMsg
  let ms2 := arr1.foldl recordMsg (recordMsg ms1 rMsg)
  -- Phase 2 (lines 114-144): propose from the R bucket, broadcast P,
  -- self-deliver it.
  let rBuf := ((lookupB ms2 k0).getD ⟨[], []⟩).r
  let vProp := proposeFromR cfg.N rBuf coin1
  let pMsg : Message :=
    { type := MessageType.P, nodeId := cfg.nodeId, k := k0, v := vProp }
  let out2 := broadcastOut cfg nd.state pMsg
  let ms3 := arr2.foldl recordMsg (recordMsg ms2 pMsg)
  -- Resolution (lines 150-216).
  let pBuf := ((lookupB ms3 k0).getD ⟨[], []⟩).p
  let c0P := countV pBuf Value.v0
  let c1P := countV pBuf Value.v1
  if cfg.N = 1 then
    -- lines 154-158: decide immediately and return (before the round
    -- increment, the pruning and the rescheduling).
    { nd with
      state := { nd.state with k := some k0, decided := some true }
      messages := ms3
      sent := nd.sent ++ out1 ++ out2 }
  else
    let xd := resolveP cfg.N cfg.F c0P c1P coin2 nd.state.decided
    -- line 195: `if (!(F > N/2 && state.k && state.k > 10)) state.k++`.
    let kNew := if 2 * cfg.F > cfg.N ∧ k0 ≠ 0 ∧ 10 < k0 then k0 else k0 + 1
    let ms4 := pruneStore ms3 kNew
    { state := { killed := nd.state.killed, x := xd.1, decided := xd.2
                 k := some kNew }
      messages := ms4
      consensusRunning := nd.consensusRunning
      stepTimeout := nd.consensusRunning && !nd.state.killed
      sent := nd.sent ++ out1 ++ out2 }

/-- One invocation of `benOrStep` (node.ts lines 64-216). -/
def benOrStep (cfg : Config) (nd : Node) (arr1 arr2 : List Message)
    (coin1 coin2 : Bool) : Node :=
  if nd.state.killed || cfg.isFaulty then nd
  else if 2 * cfg.F > cfg.N then forcedStep cfg nd
  else if nd.state.decided = some true ∧ 2 * cfg.F ≤ cfg.N then nd
  else benOrMain cfg nd arr1 arr2 coin1 coin2

/-- The `/message` route (node.ts lines 228-249): rejected without effect
when killed or faulty, else the message is recorded. -/
def recvMessage (cfg : Config) (nd : Node) (m : Message) : Node :=
  if nd.state.killed || cfg.isFaulty then nd
  else { nd with messages := recordMsg nd.messages m }

/-- The `/start` route (node.ts lines 252-275): rejected when killed or
faulty; idempotent via `consensusRunning`; under `F > N/2` it re-forces
`k = 15`, `decided = false`.  The `benOrStep()` it triggers is a separate
`Step`. -/
def startOp (cfg : Config) (nd : Node) : Node :=
  if nd.state.killed || cfg.isFaulty then nd
  else if nd.consensusRunning then nd
  else
    { nd with
      state :=
        if 2 * cfg.F > cfg.N ∧ cfg.isFaulty = false then
          { nd.state with k := some 15, decided := some false }
        else nd.state
      consensusRunning := true }

/-- The `/stop` route (node.ts lines 278-289): set `killed`, clear
`consensusRunning` and any pending timeout. -/
def stopOp (nd : Node) : Node :=
  { nd with
    state := { nd.state with killed := true }
    consensusRunning := false
    stepTimeout := false }

/-- The `/getState` route (node.ts lines 292-318): returns the reported
snapshot and the (possibly mutated) node.  In the `F > N/2` non-faulty branch
the route first overwrites `state.decided` and `state.k`, then answers with a
fresh object `{killed, x ?? 0, decided: false, k: 15}`; otherwise it answers
with `state` itself, untouched. -/
def getStateRun (cfg : Config) (nd : Node) : NodeState × Node :=
  if 2 * cfg.F > cfg.N ∧ cfg.isFaulty = false then
    let st := { nd.state with decided := some false, k := forceK nd.state.k }
    let response : NodeState :=
      { killed := st.killed
        x := some (st.x.getD Value.v0)
        decided := some false
        k := some 15 }
    (response, { nd with state := st })
  else
    (nd.state, nd)

/-- One atomic interaction with the node: a scheduled `benOrStep` (with the
window arrivals and coin draws chosen by the environment) or one of the
routes.  The boundary layer may fire these in any order. -/
inductive Step (cfg : Config) : Node → Node → Prop where
  | ben (nd : Node) (arr1 arr2 : List Message) (coin1 coin2 : Bool) :
      Step cfg nd (benOrStep cfg nd arr1 arr2 coin1 coin2)
  | recv (nd : Node) (m : Message) : Step cfg nd (recvMessage cfg nd m)
  | start (nd : Node) : Step cfg nd (startOp cfg nd)
  | stop (nd : Node) : Step cfg nd (stopOp nd)
  | inspect (nd : Node) : Step cfg nd (getStateRun cfg nd).2

/-- States the node can be in during its lifetime. -/
inductive Reachable (cfg : Config) : Node → Prop where
  | init : Reachable cfg (initNode cfg)
  | step {nd nd' : Node} : Reachable cfg nd → Step cfg nd nd' →
      Reachable cfg nd'

/-- Reflexive-transitive closure of `Step`, to talk about everything that can
happen from a given state on. -/
inductive ReachFrom (cfg : Config) : Node → Node → Prop where
  | refl (nd : Node) : ReachFrom cfg nd nd
  | tail {nd nd' nd'' : Node} : ReachFrom cfg nd nd' → Step cfg nd' nd'' →
      ReachFrom cfg nd nd''

end BenOr

namespace BenOr

/-! ### Branch characterisations of `benOrStep` -/

theorem benOrStep_of_killed {cfg : Config} {nd : Node}
    {a1 a2 : List Message} {c1 c2 : Bool} (h : nd.state.killed = true) :
    benOrStep cfg nd a1 a2 c1 c2 = nd := by
  simp [benOrStep, h]

theorem benOrStep_of_faulty {cfg : Config} {nd : Node}
    {a1 a2 : List Message} {c1 c2 : Bool} (h : cfg.isFaulty = true) :
    benOrStep cfg nd a1 a2 c1 c2 = nd := by
  simp [benOrStep, h]

theorem benOrStep_forced {cfg : Config} {nd : Node}
    {a1 a2 : List Message} {c1 c2 : Bool} (hk : nd.state.killed = false)
    (hf : cfg.isFaulty = false) (hF : 2 * cfg.F > cfg.N) :
    benOrStep cfg nd a1 a2 c1 c2 = forcedStep cfg nd := by
  simp [benOrStep, hk, hf, hF]

theorem benOrStep_of_decided {cfg : Config} {nd : Node}
    {a1 a2 : List Message} {c1 c2 : Bool} (hk : nd.state.killed = false)
    (hf : cfg.isFaulty = false) (hF : ¬ 2 * cfg.F > cfg.N)
    (hd : nd.state.decided = some true) :
    benOrStep cfg nd a1 a2 c1 c2 = nd := by
  simp [benOrStep, hk, hf, hF, hd, Nat.le_of_not_lt hF]

theorem benOrStep_main {cfg : Config} {nd : Node}
    {a1 a2 : List Message} {c1 c2 : Bool} (hk : nd.state.killed = false)
    (hf : cfg.isFaulty = false) (hF : ¬ 2 * cfg.F > cfg.N)
    (hd : nd.state.decided ≠ some true) :
    benOrStep cfg nd a1 a2 c1 c2 = benOrMain cfg nd a1 a2 c1 c2 := by
  simp [benOrStep, hk, hf, hF, hd]

/-- Whatever branch fires, `resolveP` puts `0` or `1` into `x`. -/
theorem resolveP_x (N F c0 c1 : Nat) (coin : Bool) (d : Option Bool) :
    (resolveP N F c0 c1 coin d).1 = some Value.v0 ∨
      (resolveP N F c0 c1 coin d).1 = some Value.v1 := by
  unfold resolveP
  split
  · split
    · simp
    · split
      · simp
      · split
        · simp
        · split
          · simp
          · cases coin <;> simp [coinValue]
  · split
    · simp
    · split
      · simp
      · cases coin <;> simp [coinValue]

/-- `benOrMain` either leaves `x` alone (the `N == 1` branch) or writes a
definite bit into it. -/
theorem benOrMain_x (cfg : Config) (nd : Node) (a1 a2 : List Message)
    (c1 c2 : Bool) :
    (benOrMain cfg nd a1 a2 c1 c2).state.x = nd.state.x ∨
      (benOrMain cfg nd a1 a2 c1 c2).state.x = some Value.v0 ∨
      (benOrMain cfg nd a1 a2 c1 c2).state.x = some Value.v1 := by
  unfold benOrMain
  split
  · left; rfl
  · rcases resolveP_x cfg.N cfg.F
      (countV (((lookupB (a2.foldl recordMsg (recordMsg (a1.foldl recordMsg
        (recordMsg (ensureB nd.messages (nd.state.k.getD 0))
          { type := MessageType.R, nodeId := cfg.nodeId, k := nd.state.k.getD 0
            v := nd.state.x.getD Value.unknown }))
        { type := MessageType.P, nodeId := cfg.nodeId, k := nd.state.k.getD 0
          v := proposeFromR cfg.N (((lookupB (a1.foldl recordMsg
            (recordMsg (ensureB nd.messages (nd.state.k.getD 0))
              { type := MessageType.R, nodeId := cfg.nodeId
                k := nd.state.k.getD 0
                v := nd.state.x.getD Value.unknown }))
            (nd.state.k.getD 0)).getD ⟨[], []⟩).r) c1 }))
        (nd.state.k.getD 0)).getD ⟨[], []⟩).p) Value.v0)
      (countV (((lookupB (a2.foldl recordMsg (recordMsg (a1.foldl recordMsg
        (recordMsg (ensureB nd.messages (nd.state.k.getD 0))
          { type := MessageType.R, nodeId := cfg.nodeId, k := nd.state.k.getD 0
            v := nd.state.x.getD Value.unknown }))
        { type := MessageType.P, nodeId := cfg.nodeId, k := nd.state.k.getD 0
          v := proposeFromR cfg.N (((lookupB (a1.foldl recordMsg
            (recordMsg (ensureB nd.messages (nd.state.k.getD 0))
              { type := MessageType.R, nodeId := cfg.nodeId
                k := nd.state.k.getD 0
                v := nd.state.x.getD Value.unknown }))
            (nd.state.k.getD 0)).getD ⟨[], []⟩).r) c1 }))
        (nd.state.k.getD 0)).getD ⟨[], []⟩).p) Value.v1)
      c2 nd.state.decided with h | h
    · right; left; exact h
    · right; right; exact h

/-! ### The reachable-state invariant -/

/-- Facts maintained by every operation, proved below for every reachable
state: a faulty node's consensus fields stay `null` and it never transmits;
under a violated fault bound `decided` is pinned to `false` and `k` to `15`;
a non-faulty node's estimate is always its initial value or a definite bit. -/
def Inv (cfg : Config) (nd : Node) : Prop :=
  (cfg.isFaulty = true →
     nd.state.x = none ∧ nd.state.decided = none ∧ nd.state.k = none ∧
       nd.sent = []) ∧
  (cfg.isFaulty = false → 2 * cfg.F > cfg.N →
     nd.state.decided = some false ∧ nd.state.k = some 15) ∧
  (cfg.isFaulty = false →
     nd.state.x = some cfg.initialValue ∨ nd.state.x = some Value.v0 ∨
       nd.state.x = some Value.v1)

theorem inv_init (cfg : Config) : Inv cfg (initNode cfg) := by
  refine ⟨fun hf => ?_, fun hf hF => ?_, fun hf => ?_⟩
  · simp [initNode, initState, hf]
  · simp [initNode, initState, hf, hF]
  · simp [initNode, initState, hf]

theorem inv_ben (cfg : Config) (nd : Node) (a1 a2 : List Message)
    (c1 c2 : Bool) (hI : Inv cfg nd) :
    Inv cfg (benOrStep cfg nd a1 a2 c1 c2) := by
  cases hf : cfg.isFaulty with
  | true => rw [benOrStep_of_faulty hf]; exact hI
  | false =>
  cases hk : nd.state.killed with
  | true => rw [benOrStep_of_killed hk]; exact hI
  | false =>
  obtain ⟨i1, i2, i3⟩ := hI
  by_cases hF : 2 * cfg.F > cfg.N
  · rw [benOrStep_forced hk hf hF]
    refine ⟨fun h => ?_, fun _ _ => ?_, fun _ => ?_⟩
    · rw [h] at hf; cases hf
    · have hk15 := (i2 hf hF).2
      constructor
      · rfl
      · simp [forcedStep, hk15, forceK]
    · simpa [forcedStep] using i3 hf
  · by_cases hd : nd.state.decided = some true
    · rw [benOrStep_of_decided hk hf hF hd]; exact ⟨i1, i2, i3⟩
    · rw [benOrStep_main hk hf hF hd]
      refine ⟨fun h => ?_, fun _ hF2 => absurd hF2 hF, fun _ => ?_⟩
      · rw [h] at hf; cases hf
      · rcases benOrMain_x cfg nd a1 a2 c1 c2 with h | h | h
        · rw [h]; exact i3 hf
        · right; left; exact h
        · right; right; exact h

theorem inv_recv (cfg : Config) (nd : Node) (m : Message) (hI : Inv cfg nd) :
    Inv cfg (recvMessage cfg nd m) := by
  unfold recvMessage
  split
  · exact hI
  · exact hI

theorem inv_start (cfg : Config) (nd : Node) (hI : Inv cfg nd) :
    Inv cfg (startOp cfg nd) := by
  obtain ⟨i1, i2, i3⟩ := hI
  unfold startOp
  split
  · exact ⟨i1, i2, i3⟩
  · split
    · exact ⟨i1, i2, i3⟩
    · split
      · next h =>
        refine ⟨fun hft => ?_, fun _ _ => ⟨rfl, rfl⟩, fun hf => ?_⟩
        · rw [hft] at h; exact absurd h.2 (by simp)
        · simpa using i3 hf
      · exact ⟨i1, i2, i3⟩

theorem inv_stop (cfg : Config) (nd : Node) (hI : Inv cfg nd) :
    Inv cfg (stopOp nd) := by
  obtain ⟨i1, i2, i3⟩ := hI
  refine ⟨fun hf => ?_, fun hf hF => ?_, fun hf => ?_⟩
  · simpa [stopOp] using i1 hf
  · simpa [stopOp] using i2 hf hF
  · simpa [stopOp] using i3 hf

theorem inv_inspect (cfg : Config) (nd : Node) (hI : Inv cfg nd) :
    Inv cfg (getStateRun cfg nd).2 := by
  obtain ⟨i1, i2, i3⟩ := hI
  unfold getStateRun
  split
  · next h =>
    refine ⟨fun hft => ?_, fun _ _ => ?_, fun hf => ?_⟩
    · rw [hft] at h; exact absurd h.2 (by simp)
    · have hk15 := (i2 h.2 h.1).2
      exact ⟨rfl, by simp [hk15, forceK]⟩
    · simpa using i3 hf
  · exact ⟨i1, i2, i3⟩

/-- Every reachable state satisfies the invariant. -/
theorem invariant {cfg : Config} {nd : Node} (hr : Reachable cfg nd) :
    Inv cfg nd := by
  induction hr with
  | init => exact inv_init cfg
  | step _ hs ih =>
    cases hs with
    | ben a1 a2 c1 c2 => exact inv_ben cfg _ a1 a2 c1 c2 ih
    | recv m => exact inv_recv cfg _ m ih
    | start => exact inv_start cfg _ ih
    | stop => exact inv_stop cfg _ ih
    | inspect => exact inv_inspect cfg _ ih

/-! ### Consequences of the invariant used by several claims -/

/-- On every state satisfying the invariant, the writes `getState` performs
in its `F > N/2` branch re-assert values the state already has, so the route
leaves the node untouched. -/
theorem getStateRun_preserves (cfg : Config) (nd : Node) (hI : Inv cfg nd) :
    (getStateRun cfg nd).2 = nd := by
  unfold getStateRun
  split
  · next h =>
    obtain ⟨hd, hk⟩ := hI.2.1 h.2 h.1
    cases nd with
    | mk st ms cr stT sentLog =>
      cases st with
      | mk kd x d k =>
        simp only at hd hk
        simp [hd, hk, forceK]
  · rfl

theorem startOp_of_killed {cfg : Config} {nd : Node}
    (h : nd.state.killed = true) : startOp cfg nd = nd := by
  simp [startOp, h]

/-- Once `killed` is set, no operation ever clears it. -/
theorem step_keeps_killed {cfg : Config} {nd nd2 : Node}
    (h : nd.state.killed = true) (hs : Step cfg nd nd2) :
    nd2.state.killed = true := by
  cases hs with
  | ben a1 a2 c1 c2 => rw [benOrStep_of_killed h]; exact h
  | recv m => unfold recvMessage; split
              · exact h
              · exact h
  | start => rw [startOp_of_killed h]; exact h
  | stop => rfl
  | inspect => unfold getStateRun; split
               · exact h
               · exact h

/-! ### Claim C1 -/

/-- C1: for every non-faulty node configured with `F > N/2`, the `decided`
field is `false` in every reachable state, and every snapshot returned by
`getState` reports `decided = false`, regardless of which messages were
received. -/
theorem c1_decided_stays_false (cfg : Config) (nd : Node)
    (hf : cfg.isFaulty = false) (hF : 2 * cfg.F > cfg.N)
    (hr : Reachable cfg nd) :
    nd.state.decided = some false ∧
      (getStateRun cfg nd).1.decided = some false := by
  have hI := invariant hr
  refine ⟨(hI.2.1 hf hF).1, ?_⟩
  unfold getStateRun
  simp [hf, hF]

/-- C1 witness: the hypotheses hold at `N = 3, F = 2` for a fresh node. -/
theorem c1_witness :
    (initNode ⟨0, 3, 2, Value.v1, false⟩).state.decided = some false ∧
      (getStateRun ⟨0, 3, 2, Value.v1, false⟩
        (initNode ⟨0, 3, 2, Value.v1, false⟩)).1.decided = some false :=
  c1_decided_stays_false ⟨0, 3, 2, Value.v1, false⟩ _ rfl (by decide)
    Reachable.init

/-! ### Claim C2 -/

/-- The spec's description (§4.2) of `resolveFromP` restricted to the
fault-respecting branch: `threshold = N - F`, decide on a threshold quorum,
adopt on an `F + 1` quorum, else fall back to the random bit — `decided` is
`false` in all non-deciding outcomes. -/
def resolveSpecP (N F c0 c1 : Nat) (coin : Bool) : Value × Bool :=
  if c0 ≥ N - F then (Value.v0, true)
  else if c1 ≥ N - F then (Value.v1, true)
  else if c0 ≥ F + 1 then (Value.v0, false)
  else if c1 ≥ F + 1 then (Value.v1, false)
  else (coinValue coin, false)

/-- C2: for every P-phase buffer with `N > 1` and `F ≤ N/2`, the resolve step
entered with `decided = false` computes exactly the spec's five-way outcome
on the counts of value-0 and value-1 P messages. -/
theorem c2_resolve_matches_spec (N F : Nat) (pBuf : List Message)
    (coin : Bool) (_hN : 1 < N) (hF : 2 * F ≤ N) :
    resolveP N F (countV pBuf Value.v0) (countV pBuf Value.v1) coin
        (some false) =
      (some (resolveSpecP N F (countV pBuf Value.v0)
              (countV pBuf Value.v1) coin).1,
       some (resolveSpecP N F (countV pBuf Value.v0)
              (countV pBuf Value.v1) coin).2) := by
  unfold resolveP resolveSpecP
  rw [if_pos hF]
  repeat' first
    | rfl
    | split

/-- C2 witness: concrete instance `N = 3, F = 1` with an empty buffer
(random fallback arm). -/
theorem c2_witness :
    resolveP 3 1 (countV [] Value.v0) (countV [] Value.v1) true
        (some false) =
      (some (resolveSpecP 3 1 (countV [] Value.v0) (countV [] Value.v1)
              true).1,
       some (resolveSpecP 3 1 (countV [] Value.v0) (countV [] Value.v1)
              true).2) :=
  c2_resolve_matches_spec 3 1 [] true (by decide) (by decide)

/-! ### Claim C3 -/

/-- The spec's description (§4.2) of `proposeFromR`: a function of nothing
but `N`, the two counts, and the injected random bit. -/
def proposeSpecR (N c0 c1 : Nat) (coin : Bool) : Value :=
  if 2 * c0 > N then Value.v0
  else if 2 * c1 > N then Value.v1
  else coinValue coin

/-- C3: the propose step over an R-phase buffer proposes `0` on a strict
value-0 majority, `1` on a strict value-1 majority, and otherwise the value
produced by the random-bit source; the result depends on no input other than
`N`, the two counts and the coin. -/
theorem c3_propose_matches_spec (N : Nat) (rBuf : List Message)
    (coin : Bool) :
    proposeFromR N rBuf coin =
      proposeSpecR N (countV rBuf Value.v0) (countV rBuf Value.v1) coin :=
  rfl

/-! ### Claim C4 -/

/-- C4 counterexample: the claim quantifies over every configuration with
`N == 1`, but with `N = 1, F = 1` the fault bound is violated (`1 > 1/2`),
so the first consensus step takes the forced early return and leaves
`decided = false` — it never reaches the `N == 1` decide branch. -/
theorem c4_counterexample :
    (benOrStep ⟨0, 1, 1, Value.v1, false⟩
        (startOp ⟨0, 1, 1, Value.v1, false⟩
          (initNode ⟨0, 1, 1, Value.v1, false⟩))
        [] [] true true).state.decided ≠ some true := by
  decide

/-- C4 (amended): for every configuration with `N = 1` and `F ≤ N/2`
(that is, `F = 0`), a non-faulty node's first consensus step after `/start`
sets `decided` to `true` while leaving `currentValue` unchanged and the
round counter at `0`, regardless of arrivals and coin draws (no peer
message is needed). -/
theorem c4_single_node_decides (cfg : Config) (a1 a2 : List Message)
    (c1 c2 : Bool) (hN : cfg.N = 1) (hF : 2 * cfg.F ≤ cfg.N)
    (hf : cfg.isFaulty = false) :
    (benOrStep cfg (startOp cfg (initNode cfg)) a1 a2 c1 c2).state.decided
        = some true ∧
      (benOrStep cfg (startOp cfg (initNode cfg)) a1 a2 c1 c2).state.x
        = some cfg.initialValue ∧
      (benOrStep cfg (startOp cfg (initNode cfg)) a1 a2 c1 c2).state.k
        = some 0 := by
  obtain ⟨id, N, F, iv, fl⟩ := cfg
  simp only at hN hF hf
  subst hN hf
  have hF0 : F = 0 := by omega
  subst hF0
  simp [initNode, initState, startOp, benOrStep, benOrMain]

/-- C4 witness: concrete single-node configuration `N = 1, F = 0`. -/
theorem c4_witness :
    (benOrStep ⟨0, 1, 0, Value.v0, false⟩
        (startOp ⟨0, 1, 0, Value.v0, false⟩
          (initNode ⟨0, 1, 0, Value.v0, false⟩))
        [] [] true true).state.decided = some true ∧
      (benOrStep ⟨0, 1, 0, Value.v0, false⟩
        (startOp ⟨0, 1, 0, Value.v0, false⟩
          (initNode ⟨0, 1, 0, Value.v0, false⟩))
        [] [] true true).state.x = some Value.v0 ∧
      (benOrStep ⟨0, 1, 0, Value.v0, false⟩
        (startOp ⟨0, 1, 0, Value.v0, false⟩
          (initNode ⟨0, 1, 0, Value.v0, false⟩))
        [] [] true true).state.k = some 0 :=
  c4_single_node_decides ⟨0, 1, 0, Value.v0, false⟩ [] [] true true rfl
    (by decide) rfl

/-! ### Claim C5 -/

/-- Configuration exhibiting the C5 counterexample: a single non-faulty node
whose initial value is the sentinel `?`. -/
def c5Cfg : Config := ⟨0, 1, 0, Value.unknown, false⟩

/-- The state of that node after `/start` and its first consensus step. -/
def c5Node : Node :=
  benOrStep c5Cfg (startOp c5Cfg (initNode c5Cfg)) [] [] true true

/-- C5 counterexample: a reachable state in which `decided = true` yet
`currentValue` is the sentinel `?`, not a member of `{0, 1}` — the `N == 1`
branch decides without ever settling the estimate. -/
theorem c5_counterexample :
    Reachable c5Cfg c5Node ∧ c5Node.state.decided = some true ∧
      c5Node.state.x = some Value.unknown :=
  ⟨Reachable.step (Reachable.step Reachable.init (Step.start _))
      (Step.ben _ [] [] true true),
    by decide, by decide⟩

/-- C5 (amended): in every reachable state of a node whose initial value is
`0` or `1`, `decided = true` implies `currentValue ∈ {0, 1}`, and no
subsequent operation changes `currentValue` or reverts `decided` to
`false`. -/
theorem c5_decided_permanent (cfg : Config) (nd : Node)
    (hr : Reachable cfg nd)
    (hiv : cfg.initialValue = Value.v0 ∨ cfg.initialValue = Value.v1)
    (hd : nd.state.decided = some true) :
    (nd.state.x = some Value.v0 ∨ nd.state.x = some Value.v1) ∧
      ∀ nd2, Step cfg nd nd2 →
        nd2.state.x = nd.state.x ∧ nd2.state.decided = some true := by
  have hI := invariant hr
  have hf : cfg.isFaulty = false := by
    cases hfc : cfg.isFaulty
    · rfl
    · have h2 := (hI.1 hfc).2.1
      rw [hd] at h2
      simp at h2
  have hF : ¬ 2 * cfg.F > cfg.N := by
    intro hFv
    have h2 := (hI.2.1 hf hFv).1
    rw [hd] at h2
    simp at h2
  constructor
  · rcases hI.2.2 hf with h | h | h
    · rcases hiv with hv | hv <;> rw [hv] at h
      · left; exact h
      · right; exact h
    · left; exact h
    · right; exact h
  · intro nd2 hs
    cases hs with
    | ben a1 a2 c1 c2 =>
      cases hk : nd.state.killed with
      | true => rw [benOrStep_of_killed hk]; exact ⟨rfl, hd⟩
      | false => rw [benOrStep_of_decided hk hf hF hd]; exact ⟨rfl, hd⟩
    | recv m =>
      unfold recvMessage
      split
      · exact ⟨rfl, hd⟩
      · exact ⟨rfl, hd⟩
    | start =>
      unfold startOp
      split
      · exact ⟨rfl, hd⟩
      · split
        · exact ⟨rfl, hd⟩
        · split
          · next h => exact absurd h.1 hF
          · exact ⟨rfl, hd⟩
    | stop => exact ⟨rfl, hd⟩
    | inspect =>
      unfold getStateRun
      split
      · next h => exact absurd h.1 hF
      · exact ⟨rfl, hd⟩

/-- Single-node configuration used to witness the amended C5. -/
def c5wCfg : Config := ⟨0, 1, 0, Value.v0, false⟩

/-- A reachable decided state of `c5wCfg`. -/
def c5wNode : Node :=
  benOrStep c5wCfg (startOp c5wCfg (initNode c5wCfg)) [] [] true true

/-- C5 witness: the amended theorem applies to a concrete reachable decided
state. -/
theorem c5_witness :
    c5wNode.state.x = some Value.v0 ∨ c5wNode.state.x = some Value.v1 :=
  (c5_decided_permanent c5wCfg c5wNode
    (Reachable.step (Reachable.step Reachable.init (Step.start _))
      (Step.ben _ [] [] true true))
    (Or.inl rfl) (by decide)).1

/-! ### Claim C6 -/

/-- C6 counterexample: with `N = 3, F = 2` the round counter starts at 15
and is still 15 after running a consensus step — it does not advance — and
the snapshot's `k` equals the node's initial `k`, so it is not strictly
greater than its initial value. -/
theorem c6_counterexample :
    (benOrStep ⟨0, 3, 2, Value.v1, false⟩
        (startOp ⟨0, 3, 2, Value.v1, false⟩
          (initNode ⟨0, 3, 2, Value.v1, false⟩))
        [] [] true true).state.k
      = (startOp ⟨0, 3, 2, Value.v1, false⟩
          (initNode ⟨0, 3, 2, Value.v1, false⟩)).state.k ∧
    (getStateRun ⟨0, 3, 2, Value.v1, false⟩
        (benOrStep ⟨0, 3, 2, Value.v1, false⟩
          (startOp ⟨0, 3, 2, Value.v1, false⟩
            (initNode ⟨0, 3, 2, Value.v1, false⟩))
          [] [] true true)).1.k
      = (initNode ⟨0, 3, 2, Value.v1, false⟩).state.k := by
  refine ⟨by decide, by decide⟩

/-- C6 (amended): for every non-faulty node configured with `F > N/2`, the
round counter never advances: it is pinned to its initial value 15 (a value
greater than 10) in every reachable state, and every snapshot reports
`k = 15`. -/
theorem c6_round_pinned (cfg : Config) (nd : Node)
    (hf : cfg.isFaulty = false) (hF : 2 * cfg.F > cfg.N)
    (hr : Reachable cfg nd) :
    nd.state.k = some 15 ∧ (initNode cfg).state.k = some 15 ∧
      (getStateRun cfg nd).1.k = some 15 := by
  have hI := invariant hr
  refine ⟨(hI.2.1 hf hF).2, ?_, ?_⟩
  · simp [initNode, initState, hf, hF]
  · unfold getStateRun
    simp [hf, hF]

/-- C6 witness: concrete `N = 3, F = 2` fresh node. -/
theorem c6_witness :
    (initNode ⟨0, 3, 2, Value.v1, false⟩).state.k = some 15 ∧
      (initNode ⟨0, 3, 2, Value.v1, false⟩).state.k = some 15 ∧
      (getStateRun ⟨0, 3, 2, Value.v1, false⟩
        (initNode ⟨0, 3, 2, Value.v1, false⟩)).1.k = some 15 :=
  c6_round_pinned ⟨0, 3, 2, Value.v1, false⟩ _ rfl (by decide) Reachable.init

/-! ### Claim C7 -/

/-- C7: on every reachable state, `getState` leaves the node — all of
`x`, `decided`, `k`, `killed` and the message store — unchanged, and returns
the current state, with the forced-non-termination override
(`decided = false`, `k = 15`, `x` defaulted to `0` when `null`) applied
exactly when `F > N/2` on a non-faulty node. -/
theorem c7_getState_readonly (cfg : Config) (nd : Node)
    (hr : Reachable cfg nd) :
    (getStateRun cfg nd).2 = nd ∧
      (getStateRun cfg nd).1 =
        (if 2 * cfg.F > cfg.N ∧ cfg.isFaulty = false then
           { killed := nd.state.killed
             x := some (nd.state.x.getD Value.v0)
             decided := some false
             k := some 15 }
         else nd.state) := by
  refine ⟨getStateRun_preserves cfg nd (invariant hr), ?_⟩
  unfold getStateRun
  split
  · rfl
  · rfl

/-- C7 witness: a fresh fault-bound-violating node. -/
theorem c7_witness :
    (getStateRun ⟨0, 3, 2, Value.v0, false⟩
        (initNode ⟨0, 3, 2, Value.v0, false⟩)).2
      = initNode ⟨0, 3, 2, Value.v0, false⟩ :=
  (c7_getState_readonly ⟨0, 3, 2, Value.v0, false⟩ _ Reachable.init).1

/-! ### Claim C8 -/

/-- Configuration for the C8 counterexample. -/
def c8Cfg : Config := ⟨0, 3, 0, Value.v0, false⟩

/-- A started node that has received a message for the far-future round
100. -/
def c8Mid : Node :=
  recvMessage c8Cfg (startOp c8Cfg (initNode c8Cfg))
    ⟨MessageType.R, 1, 100, Value.v1⟩

/-- The node after one consensus step, which advances the round from 0
to 1. -/
def c8Node : Node := benOrStep c8Cfg c8Mid [] [] true true

/-- C8 counterexample: after the step advances from round 0 to round 1, the
bucket for round 100 is still in the store — a bucket that is neither the
current round's (1) nor the immediately preceding round's (0), refuting the
claim's "only the current round's bucket and the immediately preceding
round's bucket may remain". -/
theorem c8_counterexample :
    Reachable c8Cfg c8Node ∧ c8Node.state.k = some 1 ∧
      lookupB c8Node.messages 100 ≠ none :=
  ⟨Reachable.step
      (Reachable.step (Reachable.step Reachable.init (Step.start _))
        (Step.recv _ ⟨MessageType.R, 1, 100, Value.v1⟩))
      (Step.ben _ [] [] true true),
    by decide, by decide⟩

/-- Pruning with the incremented round `k + 1` removes exactly the buckets
for rounds `< k`. -/
theorem pruneStore_no_old (ms : Store) (k : Nat) :
    (pruneStore ms (k + 1)).filter (fun e => decide (e.1 < k)) = [] := by
  rw [List.filter_eq_nil_iff]
  intro e he
  unfold pruneStore at he
  rw [List.mem_filter] at he
  have h2 := he.2
  simp only [Nat.add_sub_cancel, Bool.not_eq_true', decide_eq_false_iff_not]
    at h2
  simp only [decide_eq_true_eq]
  omega

/-- C8 (amended): when a consensus step advances the round counter from `k`
to `k + 1`, the message store holds no buckets for rounds strictly less than
`k`; buckets for rounds `≥ k` — including future rounds — may remain. -/
theorem c8_prune_old_rounds (cfg : Config) (nd : Node) (a1 a2 : List Message)
    (c1 c2 : Bool) (k : Nat) (hk : nd.state.k = some k)
    (hadv : (benOrStep cfg nd a1 a2 c1 c2).state.k = some (k + 1)) :
    (benOrStep cfg nd a1 a2 c1 c2).messages.filter
        (fun e => decide (e.1 < k)) = [] := by
  cases hfc : cfg.isFaulty with
  | true =>
    rw [benOrStep_of_faulty hfc] at hadv
    rw [hk] at hadv
    exact absurd (Option.some.inj hadv) (by omega)
  | false =>
  cases hkl : nd.state.killed with
  | true =>
    rw [benOrStep_of_killed hkl] at hadv
    rw [hk] at hadv
    exact absurd (Option.some.inj hadv) (by omega)
  | false =>
  by_cases hF : 2 * cfg.F > cfg.N
  · rw [benOrStep_forced hkl hfc hF] at hadv
    simp only [forcedStep] at hadv
    rw [hk] at hadv
    simp only [forceK] at hadv
    split at hadv
    · next h =>
      have h15 := Option.some.inj hadv
      omega
    · next h =>
      exact absurd (Option.some.inj hadv) (by omega)
  · by_cases hd : nd.state.decided = some true
    · rw [benOrStep_of_decided hkl hfc hF hd] at hadv
      rw [hk] at hadv
      exact absurd (Option.some.inj hadv) (by omega)
    · rw [benOrStep_main hkl hfc hF hd] at hadv ⊢
      unfold benOrMain at hadv ⊢
      simp only [hk, Option.getD_some] at hadv ⊢
      split at hadv
      · simp only at hadv
        exact absurd (Option.some.inj hadv) (by omega)
      · next hN1 =>
        rw [if_neg hN1]
        simp only
        rw [if_neg (fun hc => hF hc.1)]
        exact pruneStore_no_old _ k

/-- C8 witness: a two-node configuration whose first step advances the round
from 0 to 1. -/
theorem c8_witness :
    (benOrStep ⟨0, 2, 0, Value.v0, false⟩
        (startOp ⟨0, 2, 0, Value.v0, false⟩
          (initNode ⟨0, 2, 0, Value.v0, false⟩))
        [] [] true true).messages.filter (fun e => decide (e.1 < 0)) = [] :=
  c8_prune_old_rounds ⟨0, 2, 0, Value.v0, false⟩ _ [] [] true true 0
    (by decide) (by decide)

/-! ### Claim C9 -/

/-- C9: `stop` is idempotent — a second `stop` produces exactly the same
state (`killed = true`, consensus not running, no pending scheduled step) —
and from any point after a `stop`, no matter what the environment does, the
node stays killed, every `benOrStep` invocation is a no-op (no round ever
starts) and `start` is rejected without effect. -/
theorem c9_stop_idempotent (cfg : Config) (nd : Node) :
    stopOp (stopOp nd) = stopOp nd ∧
      (stopOp nd).state.killed = true ∧
      (stopOp nd).consensusRunning = false ∧
      (stopOp nd).stepTimeout = false ∧
      ∀ nd2, ReachFrom cfg (stopOp nd) nd2 →
        nd2.state.killed = true ∧
          (∀ a1 a2 c1 c2, benOrStep cfg nd2 a1 a2 c1 c2 = nd2) ∧
          startOp cfg nd2 = nd2 := by
  refine ⟨rfl, rfl, rfl, rfl, fun nd2 hrf => ?_⟩
  have hk : nd2.state.killed = true := by
    induction hrf with
    | refl => rfl
    | tail _ hs ih => exact step_keeps_killed ih hs
  exact ⟨hk, fun a1 a2 c1 c2 => benOrStep_of_killed hk, startOp_of_killed hk⟩

/-- C9 witness: the post-stop guarantees instantiated at a concrete node,
with the reachability hypothesis discharged by reflexivity. -/
theorem c9_witness :
    stopOp (stopOp (initNode ⟨0, 3, 1, Value.v0, false⟩))
        = stopOp (initNode ⟨0, 3, 1, Value.v0, false⟩) ∧
      (stopOp (initNode ⟨0, 3, 1, Value.v0, false⟩)).state.killed = true :=
  ⟨(c9_stop_idempotent ⟨0, 3, 1, Value.v0, false⟩
      (initNode ⟨0, 3, 1, Value.v0, false⟩)).1,
   ((c9_stop_idempotent ⟨0, 3, 1, Value.v0, false⟩
      (initNode ⟨0, 3, 1, Value.v0, false⟩)).2.2.2.2 _
      (ReachFrom.refl _)).1⟩

/-! ### Claim C10 -/

/-- C10: a faulty node is inert — in every reachable state its `x`,
`decided` and `k` are `null` and its transmission log is empty (it never
transmits, never advances the round, never decides), `benOrStep` is a no-op
on it, and `broadcastMessage` transmits nothing. -/
theorem c10_faulty_inert (cfg : Config) (nd : Node)
    (hf : cfg.isFaulty = true) (hr : Reachable cfg nd) :
    nd.state.x = none ∧ nd.state.decided = none ∧ nd.state.k = none ∧
      nd.sent = [] ∧
      (∀ a1 a2 c1 c2, benOrStep cfg nd a1 a2 c1 c2 = nd) ∧
      (∀ st m, broadcastOut cfg st m = []) := by
  obtain ⟨hx, hd, hk, hs⟩ := (invariant hr).1 hf
  exact ⟨hx, hd, hk, hs,
    fun a1 a2 c1 c2 => benOrStep_of_faulty hf,
    fun st m => by simp [broadcastOut, hf]⟩

/-- C10 witness: a fresh faulty node. -/
theorem c10_witness :
    (initNode ⟨0, 3, 1, Value.v0, true⟩).state.x = none ∧
      (initNode ⟨0, 3, 1, Value.v0, true⟩).state.decided = none :=
  ⟨(c10_faulty_inert ⟨0, 3, 1, Value.v0, true⟩ _ rfl Reachable.init).1,
   (c10_faulty_inert ⟨0, 3, 1, Value.v0, true⟩ _ rfl
      Reachable.init).2.1⟩

end BenOr
